import Mathlib

/-!
Shallow embedding of `StackMetadataBackendOutputRetrievalStrategy.fetchBackendOutput`
from `packages/deployed-backend-client/src/stack_metadata_output_retrieval_strategy.ts`,
together with theorems settling the specification claims about it.

The two CloudFormation calls (`GetTemplateSummary`, `DescribeStacks`) are modelled as
pre-supplied responses (`ProviderResponses`), each either a value or a provider error,
and the async routine becomes a pure function from those responses to
`Except ResolveError BackendOutput`.  A thrown JavaScript error becomes an
`Except.error`; the uncaught `TypeError` raised by reading `.StackStatus` off an
out-of-range index is the dedicated constructor `ResolveError.typeError`.
-/

namespace AmplifyBackend

/-- Structured values produced by `JSON.parse` on the template metadata string. -/
inductive Json where
  | null : Json
  | bool : Bool → Json
  | num : Int → Json
  | str : String → Json
  | arr : List Json → Json
  | obj : List (String × Json) → Json

/-- Mirrors `isBackendOutputEntryStackMetadata`: the JS check that the value is
truthy, has typeof object, and carries both a `version` member and a
`stackOutputs` member.  Only objects can carry both named properties; null is
falsy and an array has neither property, so every non-object value fails the
check. -/
def isBackendOutputEntryStackMetadata : Json → Bool
  | .obj fields =>
    (fields.any fun p => p.1 == "version") && (fields.any fun p => p.1 == "stackOutputs")
  | _ => false

/-- Mirrors `Object.entries` on a parsed JSON value: an object yields its fields,
an array yields index-keyed entries, and primitives yield nothing. -/
def jsonTopEntries : Json → List (String × Json)
  | .obj fields => fields
  | .arr xs => (xs.enum.map fun p => (toString p.1, p.2))
  | _ => []

/-- Mirrors `filterBackendOutputEntryStackMetadata`: keep the entries of the parsed
metadata object that pass `isBackendOutputEntryStackMetadata`. -/
def filterBackendOutputEntryStackMetadata (metadata : Json) : List (String × Json) :=
  (jsonTopEntries metadata).filter fun p => isBackendOutputEntryStackMetadata p.2

/-- One validated metadata entry (the repo calls the field `stackOutputs`; the spec
calls the same sequence `stackOutputNames`). -/
structure BackendOutputEntryStackMetadata where
  version : String
  stackOutputs : List String
deriving Repr, DecidableEq

/-- Reads a JSON array of strings, failing on any non-string element. -/
def jsonStringList : Json → Option (List String)
  | .arr xs => xs.mapM fun v => match v with | .str s => some s | _ => none
  | _ => none

/-- Modelled from the spec: the strict Zod schema `backendOutputStackMetadataSchema`
lives in the `backend-output-schemas` package, which is not among the provided
sources.  Per the spec each entry needs a required `version` and a required
non-empty `stackOutputNames` sequence of unique strings. -/
def parseMetadataEntry (v : Json) : Option BackendOutputEntryStackMetadata :=
  match v with
  | .obj fields =>
    match fields.lookup "version", fields.lookup "stackOutputs" with
    | some (.str ver), some so =>
      match jsonStringList so with
      | some names => if names ≠ [] ∧ names.Nodup then some ⟨ver, names⟩ else none
      | none => none
    | _, _ => none
  | _ => none

/-- Modelled from the spec: strict validation of every pre-filtered entry; any
malformed entry fails the whole parse (Zod propagates the first violation). -/
def schemaParseEntries :
    List (String × Json) → Option (List (String × BackendOutputEntryStackMetadata))
  | [] => some []
  | p :: rest =>
    match parseMetadataEntry p.2 with
    | none => none
    | some e =>
      match schemaParseEntries rest with
      | none => none
      | some m => some ((p.1, e) :: m)

/-- The taxonomy kinds of `BackendOutputClientError` used by this routine. -/
inductive BackendOutputClientErrorType where
  | noStackFound
  | credentialsError
  | accessDenied
  | metadataRetrievalError
  | deploymentInProgress
  | noOutputsFound
deriving Repr, DecidableEq

/-- A `CloudFormationServiceException` as far as the routine inspects it:
its `name` and its `message`. -/
structure CloudFormationServiceException where
  name : String
  message : String
deriving Repr, DecidableEq

/-- An error surfaced by one of the two SDK calls: either a
`CloudFormationServiceException` or some other thrown value. -/
inductive ProviderError where
  | cfn : CloudFormationServiceException → ProviderError
  | other : String → ProviderError
deriving Repr, DecidableEq

/-- Everything `fetchBackendOutput` can fail with:
a typed `BackendOutputClientError`, a re-thrown raw provider error, the
`SyntaxError` of a failed `JSON.parse`, a propagated schema-validation error,
or the uncaught `TypeError` of reading a property of `undefined`. -/
inductive ResolveError where
  | clientError : BackendOutputClientErrorType → String → ResolveError
  | cfnError : CloudFormationServiceException → ResolveError
  | otherError : String → ResolveError
  | parseFailure : ResolveError
  | schemaValidationError : ResolveError
  | typeError : ResolveError
deriving Repr, DecidableEq

/-- One element of `Stacks[0].Outputs` in a `DescribeStacks` response. -/
structure StackOutput where
  OutputKey : Option String
  OutputValue : Option String
deriving Repr, DecidableEq

/-- One element of `Stacks[0].Tags`. -/
structure StackTag where
  Key : Option String
  Value : Option String
deriving Repr, DecidableEq

/-- The fields of a stack that the routine reads. -/
structure Stack where
  StackStatus : Option String
  Outputs : Option (List StackOutput)
  Tags : Option (List StackTag)
deriving Repr, DecidableEq

/-- A `DescribeStacks` response. -/
structure StackDescription where
  Stacks : Option (List Stack)
deriving Repr, DecidableEq

/-- The `Metadata` field of a `GetTemplateSummary` response, as the routine sees
it after the string type test and `JSON.parse`: absent (or not a
string), a string `JSON.parse` rejects, or a string parsing to a value. -/
inductive MetadataField where
  | absent : MetadataField
  | unparseable : MetadataField
  | parsed : Json → MetadataField

/-- A `GetTemplateSummary` response. -/
structure TemplateSummary where
  Metadata : MetadataField

/-- The pre-supplied outcomes of the two SDK calls the routine makes. -/
structure ProviderResponses where
  templateSummary : Except ProviderError TemplateSummary
  stackDescription : Except ProviderError StackDescription

/-- List-character test for a string suffix, used to mirror `String.endsWith`
with kernel-friendly reduction. -/
def charsStartWith : List Char → List Char → Bool
  | _, [] => true
  | [], _ :: _ => false
  | c :: cs, p :: ps => c == p && charsStartWith cs ps

/-- Mirrors JavaScript `String.prototype.startsWith`. -/
def strStartsWith (s p : String) : Bool := charsStartWith s.toList p.toList

/-- Mirrors JavaScript `String.prototype.endsWith`. -/
def strEndsWith (s p : String) : Bool := charsStartWith s.toList.reverse p.toList.reverse

/-- Mirrors the `catch` block wrapping the `GetTemplateSummary` call: a
`CloudFormationServiceException` is classified by message then by name, and
everything else (the `MetadataRetrievalError` thrown inside the try block and
the `SyntaxError` of `JSON.parse` included) falls through the final rethrow
unchanged. -/
def classifyTemplateSummaryError (stackName : String) (e : ResolveError) : ResolveError :=
  match e with
  | .cfnError ce =>
    if strStartsWith ce.message "Stack with id" && strEndsWith ce.message "does not exist" then
      .clientError .noStackFound ("Stack with id " ++ stackName ++ " does not exist")
    else if ce.name == "ExpiredToken" || ce.name == "InvalidClientTokenId" then
      .clientError .credentialsError ce.message
    else if ce.name == "AccessDenied" then
      .clientError .accessDenied ce.message
    else
      .cfnError ce
  | e => e

/-- Injects a raw provider error into the resolve error type (a rethrow). -/
def liftProviderError : ProviderError → ResolveError
  | .cfn e => .cfnError e
  | .other m => .otherError m

/-- The `try`/`catch` around `GetTemplateSummary`: produce the parsed metadata
object or the (possibly re-classified) thrown error. -/
def getMetadataObject (stackName : String) (ts : Except ProviderError TemplateSummary) :
    Except ResolveError Json :=
  let attempt : Except ResolveError Json :=
    match ts with
    | .error e => .error (liftProviderError e)
    | .ok s =>
      match s.Metadata with
      | .absent =>
        .error (.clientError .metadataRetrievalError "Stack template metadata is not a string")
      | .unparseable => .error .parseFailure
      | .parsed j => .ok j
  match attempt with
  | .error e => .error (classifyTemplateSummaryError stackName e)
  | .ok j => .ok j

/-- The metadata half of the routine: fetch and parse the template metadata,
pre-filter it, then strictly validate it. -/
def metadataStage (stackName : String) (ts : Except ProviderError TemplateSummary) :
    Except ResolveError (List (String × BackendOutputEntryStackMetadata)) :=
  match getMetadataObject stackName ts with
  | .error e => .error e
  | .ok j =>
    match schemaParseEntries (filterBackendOutputEntryStackMetadata j) with
    | none => .error .schemaValidationError
    | some m => .ok m

/-- JavaScript truthiness of an optional string: undefined and the empty
string are falsy. -/
def truthyOpt : Option String → Bool
  | some s => !(s == "")
  | none => false

/-- Setting a key on a JavaScript object literal: an existing key keeps its
position and takes the new value, a fresh key is appended. -/
def jsInsert {α : Type} (acc : List (String × α)) (k : String) (v : α) : List (String × α) :=
  if acc.any fun p => p.1 == k then
    acc.map fun p => if p.1 == k then (k, v) else p
  else
    acc ++ [(k, v)]

/-- Mirrors the construction of `stackOutputRecord`: filter out outputs with a
falsy key or value, then fold them into a record. -/
def stackOutputRecord (outputs : List StackOutput) : List (String × String) :=
  (outputs.filter fun o => truthyOpt o.OutputValue && truthyOpt o.OutputKey).foldl
    (fun acc o => jsInsert acc (o.OutputKey.getD "") (o.OutputValue.getD "")) []

/-- Mirrors the inner `reduce` building `outputData` for one entry: walk the
declared `stackOutputs` names, skipping names whose record value is undefined
or the empty string. -/
def buildPayload (record : List (String × String)) (names : List String) :
    List (String × String) :=
  names.foldl
    (fun acc name =>
      match record.lookup name with
      | none => acc
      | some v => if v == "" then acc else jsInsert acc name v)
    []

/-- One reconciled output group: the `version` of the entry and its resolved
payload. -/
structure ResolvedOutputGroup where
  version : String
  payload : List (String × String)
deriving Repr, DecidableEq

/-- The returned `BackendOutput` object, as an insertion-ordered record. -/
abbrev BackendOutput := List (String × ResolvedOutputGroup)

/-- Mirrors the final loop over `Object.entries(backendOutputMetadata)` writing
`result[outputKeyName] = { version, payload }`. -/
def assembleBackendOutput (record : List (String × String))
    (meta : List (String × BackendOutputEntryStackMetadata)) : BackendOutput :=
  meta.foldl
    (fun result p => jsInsert result p.1 ⟨p.2.version, buildPayload record p.2.stackOutputs⟩)
    []

/-- The status suffix test on a present stack: `StackStatus` is defined and
ends with the in-progress marker. -/
def stackStatusInProgress : Option String → Bool
  | some st => strEndsWith st "_IN_PROGRESS"
  | none => false

/-- The deployment-type label: find the tag whose `Key` is
amplify:deployment-type, take its `Value`, defaulting to sandbox when the tag
list, the tag, or its value is missing. -/
def deploymentTypeOf (s : Stack) : String :=
  (((s.Tags.bind fun tags => tags.find? fun t => t.Key == some "amplify:deployment-type").bind
    fun t => t.Value).getD "sandbox")

/-- The message of the `DEPLOYMENT_IN_PROGRESS` error. -/
def inProgressMessage (deploymentType : String) : String :=
  "This " ++ deploymentType ++
    " deployment is in progress. Re-run this command once the deployment completes."

/-- The tail of the routine once the in-progress check has passed: fail when the
optional chain produced no outputs list, otherwise build the record and
reconcile it with the validated metadata. -/
def finishOutputs (outputs : Option (List StackOutput))
    (meta : List (String × BackendOutputEntryStackMetadata)) :
    Except ResolveError BackendOutput :=
  match outputs with
  | none => .error (.clientError .noOutputsFound "Stack outputs are undefined")
  | some outs => .ok (assembleBackendOutput (stackOutputRecord outs) meta)

/-- The `DescribeStacks` half of the routine.  `outputs` comes from the fully
guarded chain `stackDescription?.Stacks?.[0]?.Outputs`, but the status check
reads `Stacks?.[0].StackStatus` with no guard on the index, so a present but
empty `Stacks` list raises a `TypeError`. -/
def outputsStage (sd : StackDescription)
    (meta : List (String × BackendOutputEntryStackMetadata)) :
    Except ResolveError BackendOutput :=
  let outputs : Option (List StackOutput) :=
    (sd.Stacks.bind fun l => l.head?).bind fun s => s.Outputs
  match sd.Stacks with
  | some [] => .error .typeError
  | none => finishOutputs outputs meta
  | some (s :: _) =>
    if stackStatusInProgress s.StackStatus then
      .error (.clientError .deploymentInProgress (inProgressMessage (deploymentTypeOf s)))
    else
      finishOutputs outputs meta

/-- The whole of `fetchBackendOutput`: metadata stage, then the `DescribeStacks`
call (whose provider errors are not wrapped by any `catch`), then the outputs
stage. -/
def fetchBackendOutput (stackName : String) (p : ProviderResponses) :
    Except ResolveError BackendOutput :=
  match metadataStage stackName p.templateSummary with
  | .error e => .error e
  | .ok meta =>
    match p.stackDescription with
    | .error pe => .error (liftProviderError pe)
    | .ok sd => outputsStage sd meta


/-! ### General lemmas about the embedded operations -/

theorem jsInsert_of_not_mem {α : Type} (acc : List (String × α)) (k : String) (v : α)
    (h : (acc.any fun p => p.1 == k) = false) : jsInsert acc k v = acc ++ [(k, v)] := by
  simp [jsInsert, h]

theorem buildPayload_eq_filterMap (record : List (String × String)) (names : List String)
    (hnd : names.Nodup) :
    buildPayload record names =
      names.filterMap fun n =>
        match record.lookup n with
        | none => none
        | some v => if v == "" then none else some (n, v) := by
  have key : ∀ (ns : List String) (acc : List (String × String)),
      ns.Nodup → (∀ n ∈ ns, (acc.any fun p => p.1 == n) = false) →
      ns.foldl
        (fun acc name =>
          match record.lookup name with
          | none => acc
          | some v => if v == "" then acc else jsInsert acc name v)
        acc =
      acc ++ ns.filterMap fun n =>
        match record.lookup n with
        | none => none
        | some v => if v == "" then none else some (n, v) := by
    intro ns
    induction ns with
    | nil => intro acc _ _; simp
    | cons n rest ih =>
      intro acc hnd hdisj
      have hrest : rest.Nodup := (List.nodup_cons.mp hnd).2
      have hn_not : n ∉ rest := (List.nodup_cons.mp hnd).1
      have hdisj' : ∀ m ∈ rest, (acc.any fun p => p.1 == m) = false :=
        fun m hm => hdisj m (List.mem_cons_of_mem n hm)
      simp only [List.foldl_cons, List.filterMap_cons]
      cases hrec : record.lookup n with
      | none =>
        simp only [hrec]
        exact ih acc hrest hdisj'
      | some v =>
        simp only [hrec]
        by_cases hv : (v == "") = true
        · rw [if_pos hv, if_pos hv]
          exact ih acc hrest hdisj'
        · rw [if_neg hv, if_neg hv]
          rw [jsInsert_of_not_mem acc n v (hdisj n (List.mem_cons_self n rest))]
          have hdisj2 : ∀ m ∈ rest, ((acc ++ [(n, v)]).any fun p => p.1 == m) = false := by
            intro m hm
            have hmne : (n == m) = false :=
              beq_eq_false_iff_ne.mpr fun hEq => hn_not (hEq ▸ hm)
            simp [List.any_append, hdisj' m hm, hmne]
          rw [ih (acc ++ [(n, v)]) hrest hdisj2]
          simp
  have h0 : ∀ n ∈ names, (([] : List (String × String)).any fun p => p.1 == n) = false := by
    intro n _; simp
  simpa [buildPayload] using key names [] hnd h0

theorem assembleBackendOutput_eq_map (record : List (String × String))
    (meta : List (String × BackendOutputEntryStackMetadata))
    (hnd : (meta.map Prod.fst).Nodup) :
    assembleBackendOutput record meta =
      meta.map fun p => (p.1, ⟨p.2.version, buildPayload record p.2.stackOutputs⟩) := by
  have key : ∀ (ms : List (String × BackendOutputEntryStackMetadata)) (acc : BackendOutput),
      (ms.map Prod.fst).Nodup → (∀ q ∈ ms, (acc.any fun p => p.1 == q.1) = false) →
      ms.foldl
        (fun result p => jsInsert result p.1 ⟨p.2.version, buildPayload record p.2.stackOutputs⟩)
        acc =
      acc ++ ms.map fun p => (p.1, ⟨p.2.version, buildPayload record p.2.stackOutputs⟩) := by
    intro ms
    induction ms with
    | nil => intro acc _ _; simp
    | cons q rest ih =>
      intro acc hnd hdisj
      simp only [List.map_cons, List.nodup_cons] at hnd
      simp only [List.foldl_cons, List.map_cons]
      rw [jsInsert_of_not_mem acc q.1 _ (hdisj q (List.mem_cons_self q rest))]
      have hdisj2 : ∀ m ∈ rest,
          (((acc ++ [(q.1, (⟨q.2.version, buildPayload record q.2.stackOutputs⟩ :
            ResolvedOutputGroup))]).any fun p => p.1 == m.1) = false) := by
        intro m hm
        have hmne : (q.1 == m.1) = false :=
          beq_eq_false_iff_ne.mpr fun hEq => hnd.1 (hEq ▸ List.mem_map_of_mem Prod.fst hm)
        simp [List.any_append, hdisj m (List.mem_cons_of_mem q hm), hmne]
      rw [ih _ hnd.2 hdisj2]
      simp
  simpa [assembleBackendOutput] using key meta [] hnd (by intro q _; simp)

theorem buildPayload_keys_sub (record : List (String × String)) (names : List String)
    (hnd : names.Nodup) :
    ∀ k v, (k, v) ∈ buildPayload record names → k ∈ names := by
  intro k v hmem
  rw [buildPayload_eq_filterMap record names hnd] at hmem
  rcases List.mem_filterMap.mp hmem with ⟨n, hn, heq⟩
  cases hrec : record.lookup n with
  | none =>
    simp only [hrec] at heq
    exact Option.noConfusion heq
  | some w =>
    simp only [hrec] at heq
    split at heq
    · exact absurd heq (by simp)
    · cases heq
      exact hn


/-- A strictly validated entry has a non-empty, duplicate-free name sequence. -/
theorem parseMetadataEntry_nodup (v : Json) (e : BackendOutputEntryStackMetadata)
    (h : parseMetadataEntry v = some e) : e.stackOutputs ≠ [] ∧ e.stackOutputs.Nodup := by
  unfold parseMetadataEntry at h
  split at h
  · split at h
    · split at h
      · split at h
        · rename_i hcond
          cases h
          exact hcond
        · exact absurd h (by simp)
      · exact absurd h (by simp)
    · exact absurd h (by simp)
  · exact absurd h (by simp)

/-- If some pre-filtered entry fails strict validation, the whole parse fails. -/
theorem schemaParseEntries_none (entries : List (String × Json))
    (h : ∃ q ∈ entries, parseMetadataEntry q.2 = none) :
    schemaParseEntries entries = none := by
  induction entries with
  | nil => simp at h
  | cons p rest ih =>
    rcases h with ⟨q, hq, hfail⟩
    rcases List.mem_cons.mp hq with hEq | hmem
    · subst hEq
      simp [schemaParseEntries, hfail]
    · unfold schemaParseEntries
      rw [ih ⟨q, hmem, hfail⟩]
      cases parseMetadataEntry p.2 <;> simp


/-- The empty record resolves no names: the payload of any entry is empty. -/
theorem buildPayload_empty_record (names : List String) : buildPayload [] names = [] := by
  have key : ∀ (ns : List String) (acc : List (String × String)),
      ns.foldl
        (fun acc name =>
          match ([] : List (String × String)).lookup name with
          | none => acc
          | some v => if v == "" then acc else jsInsert acc name v)
        acc = acc := by
    intro ns
    induction ns with
    | nil => intro acc; rfl
    | cons n rest ih =>
      intro acc
      simp only [List.foldl_cons]
      exact ih _
  exact key names []

/-- Tests whether a resolution outcome is a typed client error of a given kind. -/
def isClientErrorOfType (t : BackendOutputClientErrorType) : ResolveError → Bool
  | .clientError t2 _ => t2 == t
  | _ => false

/-- Tests whether a JSON value carries a given top-level member. -/
def jsonHasTopField (v : Json) (k : String) : Bool :=
  (jsonTopEntries v).any fun p => p.1 == k

/-- The spec-side wording of the retained entries after the correction: an entry
looks like a metadata entry when its value is an object carrying both a
`version` member and a `stackOutputs` member. -/
def specEntryLooksLikeMetadata (v : Json) : Prop :=
  ∃ fs, v = Json.obj fs ∧ "version" ∈ fs.map Prod.fst ∧ "stackOutputs" ∈ fs.map Prod.fst

/-! ### Claim theorems -/

/-- C1: for every validated metadata entry, the resolved payload maps exactly the
declared names whose record value is present and non-empty to that value, in
declared order, and never contains a key outside the declared names. -/
theorem claimC1_payload_exact (record : List (String × String)) (v : Json)
    (e : BackendOutputEntryStackMetadata) (hval : parseMetadataEntry v = some e) :
    buildPayload record e.stackOutputs =
      (e.stackOutputs.filterMap fun n =>
        match record.lookup n with
        | none => none
        | some w => if w == "" then none else some (n, w))
    ∧ ∀ k w, (k, w) ∈ buildPayload record e.stackOutputs → k ∈ e.stackOutputs := by
  have hnd := (parseMetadataEntry_nodup v e hval).2
  exact ⟨buildPayload_eq_filterMap record e.stackOutputs hnd,
         buildPayload_keys_sub record e.stackOutputs hnd⟩

/-- Witness for C1 at a concrete entry: a present non-empty value is kept, an
empty value and a missing name are dropped. -/
theorem claimC1_payload_exact_witness :
    buildPayload [("ApiUrl", "https://x"), ("ApiId", "")] ["ApiUrl", "ApiId", "Missing"] =
      [("ApiUrl", "https://x")] :=
  ((claimC1_payload_exact [("ApiUrl", "https://x"), ("ApiId", "")]
      (Json.obj [("version", Json.str "1"),
        ("stackOutputs", Json.arr [Json.str "ApiUrl", Json.str "ApiId", Json.str "Missing"])])
      ⟨"1", ["ApiUrl", "ApiId", "Missing"]⟩ (by decide)).1).trans rfl

/-- C2: an in-progress stack status fails the call with a
`DeploymentInProgressError` regardless of the outputs field, carrying the
deployment-type label from the `amplify:deployment-type` tag, defaulting to
`sandbox` when no such tag is found. -/
theorem claimC2_inProgress_precedence (stackName : String) (p : ProviderResponses)
    (meta : List (String × BackendOutputEntryStackMetadata)) (sd : StackDescription)
    (s : Stack) (rest : List Stack) (st : String)
    (hmeta : metadataStage stackName p.templateSummary = .ok meta)
    (hsd : p.stackDescription = .ok sd)
    (hstacks : sd.Stacks = some (s :: rest))
    (hst : s.StackStatus = some st)
    (hip : strEndsWith st "_IN_PROGRESS" = true) :
    fetchBackendOutput stackName p =
      .error (.clientError .deploymentInProgress (inProgressMessage (deploymentTypeOf s)))
    ∧ ((s.Tags.bind fun tags =>
          tags.find? fun t => t.Key == some "amplify:deployment-type") = none →
        deploymentTypeOf s = "sandbox") := by
  constructor
  · unfold fetchBackendOutput
    simp only [hmeta, hsd]
    unfold outputsStage
    simp only [hstacks, stackStatusInProgress, hst, hip, if_true]
  · intro h
    simp [deploymentTypeOf, h]

/-- Witness for C2: concrete in-progress stack with no tags and outputs present. -/
theorem claimC2_inProgress_precedence_witness :
    fetchBackendOutput "stackA"
        ⟨.ok ⟨.parsed (Json.obj [])⟩,
         .ok ⟨some [⟨some "UPDATE_IN_PROGRESS", some [⟨some "K", some "V"⟩], none⟩]⟩⟩ =
      .error (.clientError .deploymentInProgress (inProgressMessage "sandbox")) := by
  have h := claimC2_inProgress_precedence "stackA"
    ⟨.ok ⟨.parsed (Json.obj [])⟩,
     .ok ⟨some [⟨some "UPDATE_IN_PROGRESS", some [⟨some "K", some "V"⟩], none⟩]⟩⟩
    [] ⟨some [⟨some "UPDATE_IN_PROGRESS", some [⟨some "K", some "V"⟩], none⟩]⟩
    ⟨some "UPDATE_IN_PROGRESS", some [⟨some "K", some "V"⟩], none⟩ []
    "UPDATE_IN_PROGRESS" rfl rfl rfl rfl (by decide)
  have hdt : deploymentTypeOf
      ⟨some "UPDATE_IN_PROGRESS", some [⟨some "K", some "V"⟩], none⟩ = "sandbox" := rfl
  calc fetchBackendOutput "stackA"
        ⟨.ok ⟨.parsed (Json.obj [])⟩,
         .ok ⟨some [⟨some "UPDATE_IN_PROGRESS", some [⟨some "K", some "V"⟩], none⟩]⟩⟩
      = .error (.clientError .deploymentInProgress (inProgressMessage (deploymentTypeOf
          ⟨some "UPDATE_IN_PROGRESS", some [⟨some "K", some "V"⟩], none⟩))) := h.1
    _ = .error (.clientError .deploymentInProgress (inProgressMessage "sandbox")) := by rw [hdt]

/-- C3 counterexample: an entry carrying a `version` member (so not lacking both
members) is nevertheless removed by the pre-filter. -/
theorem claimC3_prefilter_counterexample :
    filterBackendOutputEntryStackMetadata
        (Json.obj [("a", Json.obj [("version", Json.str "1")])]) = []
    ∧ jsonHasTopField (Json.obj [("version", Json.str "1")]) "version" = true :=
  ⟨rfl, rfl⟩

/-- C3 amended: the pre-filter retains exactly the entries whose value is an
object carrying both a `version` member and a `stackOutputs` member; every
other entry (in particular an unrelated key with neither member) is removed
before strict validation. -/
theorem claimC3_prefilter_amended (fields : List (String × Json)) (q : String × Json) :
    q ∈ filterBackendOutputEntryStackMetadata (Json.obj fields) ↔
      q ∈ fields ∧ specEntryLooksLikeMetadata q.2 := by
  simp only [filterBackendOutputEntryStackMetadata, jsonTopEntries, List.mem_filter]
  constructor
  · rintro ⟨hmem, hpred⟩
    refine ⟨hmem, ?_⟩
    cases hv : q.2 with
    | obj fs =>
      rw [hv] at hpred
      simp only [isBackendOutputEntryStackMetadata, Bool.and_eq_true, List.any_eq_true,
        beq_iff_eq] at hpred
      obtain ⟨⟨p1, hp1, hp1e⟩, ⟨p2, hp2, hp2e⟩⟩ := hpred
      exact ⟨fs, rfl, ⟨hp1e ▸ List.mem_map_of_mem Prod.fst hp1,
        hp2e ▸ List.mem_map_of_mem Prod.fst hp2⟩⟩
    | null => rw [hv] at hpred; exact absurd hpred (by simp [isBackendOutputEntryStackMetadata])
    | bool b => rw [hv] at hpred; exact absurd hpred (by simp [isBackendOutputEntryStackMetadata])
    | num n => rw [hv] at hpred; exact absurd hpred (by simp [isBackendOutputEntryStackMetadata])
    | str s => rw [hv] at hpred; exact absurd hpred (by simp [isBackendOutputEntryStackMetadata])
    | arr xs => rw [hv] at hpred; exact absurd hpred (by simp [isBackendOutputEntryStackMetadata])
  · rintro ⟨hmem, fs, hv, h1, h2⟩
    refine ⟨hmem, ?_⟩
    rw [hv]
    simp only [isBackendOutputEntryStackMetadata, Bool.and_eq_true, List.any_eq_true, beq_iff_eq]
    rcases List.mem_map.mp h1 with ⟨p1, hp1, hp1e⟩
    rcases List.mem_map.mp h2 with ⟨p2, hp2, hp2e⟩
    exact ⟨⟨p1, hp1, hp1e⟩, ⟨p2, hp2, hp2e⟩⟩

/-- The classification rule list as the spec words it, applied to a
CloudFormation service exception: a "Stack with id ... does not exist" message
maps to `NoStackFound`, the `ExpiredToken` and `InvalidClientTokenId` names map
to `CredentialsError`, the `AccessDenied` name maps to `AccessDenied`, and any
other provider error is re-thrown unchanged. -/
def specClassifyCfnError (stackName : String) (ce : CloudFormationServiceException) :
    ResolveError :=
  if strStartsWith ce.message "Stack with id" && strEndsWith ce.message "does not exist" then
    .clientError .noStackFound ("Stack with id " ++ stackName ++ " does not exist")
  else if ce.name == "ExpiredToken" || ce.name == "InvalidClientTokenId" then
    .clientError .credentialsError ce.message
  else if ce.name == "AccessDenied" then
    .clientError .accessDenied ce.message
  else
    .cfnError ce

/-- C4 counterexample: a provider error raised by the `DescribeStacks` call is
not classified even when it matches a rule (here `AccessDenied`); it escapes as
the raw exception. -/
theorem claimC4_classification_counterexample :
    fetchBackendOutput "stackJ"
        ⟨.ok ⟨.parsed (Json.obj [])⟩, .error (.cfn ⟨"AccessDenied", "Access denied"⟩)⟩ =
      .error (.cfnError ⟨"AccessDenied", "Access denied"⟩)
    ∧ isClientErrorOfType .accessDenied (.cfnError ⟨"AccessDenied", "Access denied"⟩) = false :=
  ⟨rfl, rfl⟩

/-- C4 amended: provider errors of the metadata fetch are classified by the
rule list of the spec (unmatched ones re-thrown unchanged), while any provider error
of the outputs fetch propagates unchanged, never classified. -/
theorem claimC4_classification_amended (stackName : String)
    (ce : CloudFormationServiceException) (m : String)
    (ts : Except ProviderError TemplateSummary)
    (meta : List (String × BackendOutputEntryStackMetadata)) (pe : ProviderError)
    (hmeta : metadataStage stackName ts = .ok meta) :
    metadataStage stackName (.error (.cfn ce)) = .error (specClassifyCfnError stackName ce)
    ∧ metadataStage stackName (.error (.other m)) = .error (.otherError m)
    ∧ fetchBackendOutput stackName ⟨ts, .error pe⟩ = .error (liftProviderError pe) := by
  refine ⟨rfl, rfl, ?_⟩
  unfold fetchBackendOutput
  simp only [hmeta]

/-- Witness for C4 amended: an expired-token exception from the metadata fetch
is classified, a throttling exception from the outputs fetch escapes raw. -/
theorem claimC4_classification_amended_witness :
    metadataStage "stackI" (.error (.cfn ⟨"ExpiredToken", "The security token is expired"⟩)) =
      .error (specClassifyCfnError "stackI" ⟨"ExpiredToken", "The security token is expired"⟩)
    ∧ fetchBackendOutput "stackI"
        ⟨.ok ⟨.parsed (Json.obj [])⟩, .error (.cfn ⟨"Throttling", "Rate exceeded"⟩)⟩ =
      .error (.cfnError ⟨"Throttling", "Rate exceeded"⟩) := by
  have h := claimC4_classification_amended "stackI"
    ⟨"ExpiredToken", "The security token is expired"⟩ "boom"
    (.ok ⟨.parsed (Json.obj [])⟩) [] (.cfn ⟨"Throttling", "Rate exceeded"⟩) rfl
  exact ⟨h.1, h.2.2.trans rfl⟩

/-- C5 counterexample: a metadata string the parser rejects makes the call fail
with the raw parse error, not with a `MetadataRetrievalError`. -/
theorem claimC5_metadata_counterexample :
    fetchBackendOutput "stackB" ⟨.ok ⟨.unparseable⟩, .ok ⟨some []⟩⟩ = .error .parseFailure
    ∧ isClientErrorOfType .metadataRetrievalError .parseFailure = false :=
  ⟨rfl, rfl⟩

/-- C5 amended: an absent (non-string) metadata blob fails with
`MetadataRetrievalError`, while an unparseable string fails with the parse
error re-thrown unchanged. -/
theorem claimC5_metadata_amended (stackName : String) (p : ProviderResponses) :
    (p.templateSummary = .ok ⟨.absent⟩ →
      fetchBackendOutput stackName p =
        .error (.clientError .metadataRetrievalError "Stack template metadata is not a string"))
    ∧ (p.templateSummary = .ok ⟨.unparseable⟩ →
      fetchBackendOutput stackName p = .error .parseFailure) := by
  constructor
  · intro h
    unfold fetchBackendOutput metadataStage getMetadataObject
    simp [h, classifyTemplateSummaryError]
  · intro h
    unfold fetchBackendOutput metadataStage getMetadataObject
    simp [h, classifyTemplateSummaryError]

/-- Witness for C5 amended, at concrete responses, covering both branches. -/
theorem claimC5_metadata_amended_witness :
    fetchBackendOutput "stackC" ⟨.ok ⟨.absent⟩, .ok ⟨some []⟩⟩ =
      .error (.clientError .metadataRetrievalError "Stack template metadata is not a string")
    ∧ fetchBackendOutput "stackK" ⟨.ok ⟨.unparseable⟩, .ok ⟨some []⟩⟩ =
      .error .parseFailure :=
  ⟨(claimC5_metadata_amended "stackC" ⟨.ok ⟨.absent⟩, .ok ⟨some []⟩⟩).1 rfl,
   (claimC5_metadata_amended "stackK" ⟨.ok ⟨.unparseable⟩, .ok ⟨some []⟩⟩).2 rfl⟩

/-- C6: if some pre-filter-retained entry fails strict schema validation, the
call fails with the propagated schema-validation error and returns no output. -/
theorem claimC6_schema_validation (stackName : String) (p : ProviderResponses) (j : Json)
    (hts : p.templateSummary = .ok ⟨.parsed j⟩)
    (hbad : ∃ q ∈ filterBackendOutputEntryStackMetadata j, parseMetadataEntry q.2 = none) :
    fetchBackendOutput stackName p = .error .schemaValidationError := by
  unfold fetchBackendOutput metadataStage getMetadataObject
  simp [hts, schemaParseEntries_none _ hbad]

/-- Witness for C6: an entry with an empty `stackOutputs` array passes the
pre-filter but fails strict validation. -/
theorem claimC6_schema_validation_witness :
    fetchBackendOutput "stackD"
        ⟨.ok ⟨.parsed (Json.obj [("bad", Json.obj [("version", Json.str "1"),
            ("stackOutputs", Json.arr [])])])⟩, .ok ⟨some []⟩⟩ =
      .error .schemaValidationError :=
  claimC6_schema_validation "stackD"
    ⟨.ok ⟨.parsed (Json.obj [("bad", Json.obj [("version", Json.str "1"),
        ("stackOutputs", Json.arr [])])])⟩, .ok ⟨some []⟩⟩
    (Json.obj [("bad", Json.obj [("version", Json.str "1"), ("stackOutputs", Json.arr [])])])
    rfl
    ⟨("bad", Json.obj [("version", Json.str "1"), ("stackOutputs", Json.arr [])]),
      show ("bad", Json.obj [("version", Json.str "1"), ("stackOutputs", Json.arr [])]) ∈
          [("bad", Json.obj [("version", Json.str "1"), ("stackOutputs", Json.arr [])])] from
        List.mem_cons_self _ _,
      rfl⟩

/-- C7: undefined outputs with a stack that is not in progress fail with
`NoOutputsFoundError`. -/
theorem claimC7_no_outputs (stackName : String) (p : ProviderResponses)
    (meta : List (String × BackendOutputEntryStackMetadata)) (sd : StackDescription)
    (hmeta : metadataStage stackName p.templateSummary = .ok meta)
    (hsd : p.stackDescription = .ok sd)
    (houts : ((sd.Stacks.bind fun l => l.head?).bind fun s => s.Outputs) = none)
    (hstat : sd.Stacks = none ∨
      ∃ s rest, sd.Stacks = some (s :: rest) ∧ stackStatusInProgress s.StackStatus = false) :
    fetchBackendOutput stackName p =
      .error (.clientError .noOutputsFound "Stack outputs are undefined") := by
  unfold fetchBackendOutput
  simp only [hmeta, hsd]
  unfold outputsStage
  rcases hstat with hnone | ⟨s, rest, hstacks, hfalse⟩
  · simp [hnone, finishOutputs]
  · rw [hstacks] at houts
    simp at houts
    simp [hstacks, hfalse, finishOutputs, houts]

/-- Witness for C7: a complete stack whose `Outputs` field is absent. -/
theorem claimC7_no_outputs_witness :
    fetchBackendOutput "stackE"
        ⟨.ok ⟨.parsed (Json.obj [])⟩, .ok ⟨some [⟨some "CREATE_COMPLETE", none, none⟩]⟩⟩ =
      .error (.clientError .noOutputsFound "Stack outputs are undefined") :=
  claimC7_no_outputs "stackE" _ [] ⟨some [⟨some "CREATE_COMPLETE", none, none⟩]⟩
    rfl rfl rfl (Or.inr ⟨⟨some "CREATE_COMPLETE", none, none⟩, [], rfl, by decide⟩)

/-- Success shape of the routine: a complete first stack with a present outputs
list yields one group per validated metadata entry, in metadata order. -/
theorem fetch_success_shape (stackName : String) (p : ProviderResponses)
    (meta : List (String × BackendOutputEntryStackMetadata))
    (s : Stack) (rest : List Stack) (outs : List StackOutput)
    (hmeta : metadataStage stackName p.templateSummary = .ok meta)
    (hsd : p.stackDescription = .ok ⟨some (s :: rest)⟩)
    (hstat : stackStatusInProgress s.StackStatus = false)
    (houts : s.Outputs = some outs)
    (hkeys : (meta.map Prod.fst).Nodup) :
    fetchBackendOutput stackName p =
      .ok (meta.map fun q =>
        (q.1, ⟨q.2.version, buildPayload (stackOutputRecord outs) q.2.stackOutputs⟩)) := by
  unfold fetchBackendOutput
  simp only [hmeta, hsd]
  unfold outputsStage
  simp only [hstat, Bool.false_eq_true, if_false, Option.some_bind, List.head?_cons,
    finishOutputs, houts]
  exact congrArg Except.ok (assembleBackendOutput_eq_map (stackOutputRecord outs) meta hkeys)

/-- C8: on success every validated metadata entry yields its group, in the
original metadata order, with the version copied verbatim and the payload
built from the stack output record; the group keys are exactly the metadata
keys in order. -/
theorem claimC8_groups_in_order (stackName : String) (p : ProviderResponses)
    (meta : List (String × BackendOutputEntryStackMetadata))
    (s : Stack) (rest : List Stack) (outs : List StackOutput)
    (hmeta : metadataStage stackName p.templateSummary = .ok meta)
    (hsd : p.stackDescription = .ok ⟨some (s :: rest)⟩)
    (hstat : stackStatusInProgress s.StackStatus = false)
    (houts : s.Outputs = some outs)
    (hkeys : (meta.map Prod.fst).Nodup) :
    fetchBackendOutput stackName p =
      .ok (meta.map fun q =>
        (q.1, ⟨q.2.version, buildPayload (stackOutputRecord outs) q.2.stackOutputs⟩))
    ∧ (meta.map fun q =>
        (q.1, (⟨q.2.version, buildPayload (stackOutputRecord outs) q.2.stackOutputs⟩ :
          ResolvedOutputGroup))).map Prod.fst = meta.map Prod.fst := by
  constructor
  · exact fetch_success_shape stackName p meta s rest outs hmeta hsd hstat houts hkeys
  · simp [List.map_map, Function.comp_def]

/-- Witness for C8: one resolvable entry and one entry with no resolvable
names; the latter still yields its (empty-payload) group. -/
theorem claimC8_groups_in_order_witness :
    fetchBackendOutput "stackF"
        ⟨.ok ⟨.parsed (Json.obj
          [("api", Json.obj [("version", Json.str "1"),
              ("stackOutputs", Json.arr [Json.str "ApiUrl"])]),
           ("auth", Json.obj [("version", Json.str "2"),
              ("stackOutputs", Json.arr [Json.str "PoolId"])])])⟩,
         .ok ⟨some [⟨some "CREATE_COMPLETE", some [⟨some "ApiUrl", some "https://x"⟩], none⟩]⟩⟩ =
      .ok [("api", ⟨"1", [("ApiUrl", "https://x")]⟩), ("auth", ⟨"2", []⟩)] := by
  have h := (claimC8_groups_in_order "stackF"
    ⟨.ok ⟨.parsed (Json.obj
      [("api", Json.obj [("version", Json.str "1"),
          ("stackOutputs", Json.arr [Json.str "ApiUrl"])]),
       ("auth", Json.obj [("version", Json.str "2"),
          ("stackOutputs", Json.arr [Json.str "PoolId"])])])⟩,
     .ok ⟨some [⟨some "CREATE_COMPLETE", some [⟨some "ApiUrl", some "https://x"⟩], none⟩]⟩⟩
    [("api", ⟨"1", ["ApiUrl"]⟩), ("auth", ⟨"2", ["PoolId"]⟩)]
    ⟨some "CREATE_COMPLETE", some [⟨some "ApiUrl", some "https://x"⟩], none⟩ []
    [⟨some "ApiUrl", some "https://x"⟩]
    rfl rfl (by decide) rfl (by decide)).1
  exact h.trans rfl

/-- C9: a defined but empty outputs list on a stack that is not in progress does
not trigger `NoOutputsFoundError`: the call succeeds and every validated group
is returned with an empty payload. -/
theorem claimC9_empty_outputs_list (stackName : String) (p : ProviderResponses)
    (meta : List (String × BackendOutputEntryStackMetadata))
    (s : Stack) (rest : List Stack)
    (hmeta : metadataStage stackName p.templateSummary = .ok meta)
    (hsd : p.stackDescription = .ok ⟨some (s :: rest)⟩)
    (hstat : stackStatusInProgress s.StackStatus = false)
    (houts : s.Outputs = some [])
    (hkeys : (meta.map Prod.fst).Nodup) :
    fetchBackendOutput stackName p =
      .ok (meta.map fun q => (q.1, ⟨q.2.version, []⟩))
    ∧ fetchBackendOutput stackName p ≠
        .error (.clientError .noOutputsFound "Stack outputs are undefined") := by
  have h := fetch_success_shape stackName p meta s rest [] hmeta hsd hstat houts hkeys
  have hfun : (fun q : String × BackendOutputEntryStackMetadata =>
        (q.1, (⟨q.2.version, buildPayload (stackOutputRecord []) q.2.stackOutputs⟩ :
          ResolvedOutputGroup))) =
      fun q => (q.1, ⟨q.2.version, []⟩) := by
    funext q
    rw [show stackOutputRecord [] = [] from rfl, buildPayload_empty_record]
  rw [hfun] at h
  refine ⟨h, ?_⟩
  intro hcontra
  rw [h] at hcontra
  exact Except.noConfusion hcontra

/-- Witness for C9: a complete stack reporting an empty outputs list still
succeeds, returning the validated group with an empty payload. -/
theorem claimC9_empty_outputs_list_witness :
    fetchBackendOutput "stackH"
        ⟨.ok ⟨.parsed (Json.obj [("api", Json.obj [("version", Json.str "1"),
            ("stackOutputs", Json.arr [Json.str "ApiUrl"])])])⟩,
         .ok ⟨some [⟨some "CREATE_COMPLETE", some [], none⟩]⟩⟩ =
      .ok [("api", ⟨"1", []⟩)] := by
  have h := (claimC9_empty_outputs_list "stackH"
    ⟨.ok ⟨.parsed (Json.obj [("api", Json.obj [("version", Json.str "1"),
        ("stackOutputs", Json.arr [Json.str "ApiUrl"])])])⟩,
     .ok ⟨some [⟨some "CREATE_COMPLETE", some [], none⟩]⟩⟩
    [("api", ⟨"1", ["ApiUrl"]⟩)] ⟨some "CREATE_COMPLETE", some [], none⟩ []
    rfl rfl (by decide) rfl (by decide)).1
  exact h.trans rfl

/-- C10: a present but empty `Stacks` list makes the status read fail with an
untyped runtime error: the call neither succeeds nor fails with a taxonomy
error. -/
theorem claimC10_empty_stacks (stackName : String) (p : ProviderResponses)
    (meta : List (String × BackendOutputEntryStackMetadata))
    (hmeta : metadataStage stackName p.templateSummary = .ok meta)
    (hsd : p.stackDescription = .ok ⟨some []⟩) :
    fetchBackendOutput stackName p = .error .typeError
    ∧ ∀ t m, ResolveError.typeError ≠ ResolveError.clientError t m := by
  constructor
  · unfold fetchBackendOutput
    simp only [hmeta, hsd]
    rfl
  · intro t m h
    exact ResolveError.noConfusion h

/-- Witness for C10 at concrete responses. -/
theorem claimC10_empty_stacks_witness :
    fetchBackendOutput "stackG" ⟨.ok ⟨.parsed (Json.obj [])⟩, .ok ⟨some []⟩⟩ =
      .error .typeError :=
  (claimC10_empty_stacks "stackG" ⟨.ok ⟨.parsed (Json.obj [])⟩, .ok ⟨some []⟩⟩ [] rfl rfl).1


end AmplifyBackend
